import Mathlib

/-!
Shallow embedding of `stress/locust.py` (karavi-authorization stress script).

The script drives a storage REST API through the locust framework: a global
token pool is read from `tokens.txt`, each simulated user pops a token and
builds headers in `on_start`, and the two task methods `create_volume` and
`delete_volume` issue fixed sequences of HTTP requests, checking each
response's status code and firing task-level success/failure events.

The HTTP layer and the event bus are external to the script; they are
modelled by an environment `Nat → Outcome` giving, for each request position
of one task invocation, either a response (status code and body text) or a
raised exception, and by recording the fired events in the result.
-/

set_option autoImplicit false

namespace Locust

/-- A Python exception value, as far as the script can observe one:
either an unbound-name error raised by the interpreter when a local
variable is referenced before assignment, or any other exception
(e.g. one raised by the HTTP client), identified by its message. -/
inductive PyExn where
  | unboundLocal (varName : String)
  | user (msg : String)
deriving DecidableEq, Repr

/-- What the environment does for one HTTP call: return a response
(status code and body text) or raise an exception. -/
inductive Outcome where
  | ok (status : Nat) (text : String)
  | exn (e : PyExn)
deriving DecidableEq, Repr

/-- One HTTP request as issued by `self.client.get`/`self.client.post`:
method, URL path, the optional locust `name=` grouping label, and the
optional JSON payload (an ordered list of key/value pairs, mirroring the
Python dict literals of the script). -/
structure Request where
  method : String
  path : String
  locustName : Option String := none
  payload : Option (List (String × String)) := none
deriving DecidableEq, Repr

/-- A task-level event fired on `events.request_success` /
`events.request_failure` (lines 27, 95, 98, … of the script). -/
inductive Event where
  | success (taskName : String)
  | failure (taskName : String) (exception : PyExn)
deriving DecidableEq, Repr

/-- How the `try`-block body of a task method terminates:
it runs to the end, it executes one of the early `return` statements in a
status-code failure branch, or an exception escapes to the
`except Exception as e` handler. -/
inductive BodyExit where
  | done
  | earlyReturn
  | raised (e : PyExn)
deriving DecidableEq, Repr

/-- Result of running the `try`-block body: the requests actually issued
(in order), the body texts passed to `resp.failure(...)`, and how the body
terminated. -/
structure RunRes where
  issued : List Request
  marked : List String
  exit : BodyExit
deriving DecidableEq, Repr

/-- The names that CPython treats as local variables of `create_volume` /
`delete_volume`: every name assigned anywhere in the function body
(`self` is the parameter; `start_time`, `payload`, `resp`, `total_time`
and `e` are assigned in the body, `e` only by the `except ... as e` clause). -/
def localNamesOfTaskFn : List String :=
  ["self", "start_time", "payload", "resp", "total_time", "e"]

/-- The local names that are bound when a status-code failure branch runs:
`total_time` is first assigned only at the end of the `try` block or in the
handler, and `e` only by the `except` clause, so neither is bound there.
(`payload` is bound only from the second request of `create_volume` on, but
neither name queried below is ever affected by that.) -/
def boundLocalsAtStatusBranch : List String :=
  ["self", "start_time", "payload", "resp"]

/-- The local variables referenced by the `events.request_failure.fire(...)`
call inside a status-code failure branch, in keyword-argument evaluation
order: `response_time=total_time` then `exception=e`. -/
def failureFireLocalRefs : List String := ["total_time", "e"]

/-- The exception, if any, raised by evaluating the arguments of the
`events.request_failure.fire(...)` call in a status-code failure branch:
the first referenced local that is not yet bound raises
`UnboundLocalError` for that name. -/
def statusBranchRaise : Option PyExn :=
  (failureFireLocalRefs.find? fun n => !(boundLocalsAtStatusBranch.contains n)).map
    PyExn.unboundLocal

/-- Run the request sequence of one task body against an environment,
starting at request position `i`.  Each `with self.client.… as resp:`
block yields an outcome:
* an exception from the client escapes to the handler (`.raised`);
* a response whose status meets the threshold is marked failed via
  `resp.failure(resp.text)`, after which the `fire` call's argument
  evaluation either raises (when it references an unbound local) or the
  event is fired and the branch returns early;
* otherwise the next request is issued. -/
def runReqs (thresh : Nat → Bool) (env : Nat → Outcome) :
    List Request → Nat → RunRes
  | [], _ => ⟨[], [], .done⟩
  | r :: rest, i =>
    match env i with
    | .exn e => ⟨[r], [], .raised e⟩
    | .ok status text =>
      if thresh status then
        match statusBranchRaise with
        | some ex => ⟨[r], [text], .raised ex⟩
        | none => ⟨[r], [text], .earlyReturn⟩
      else
        let res := runReqs thresh env rest (i + 1)
        ⟨r :: res.issued, res.marked, res.exit⟩

/-- Per-user state: the global `TOKENS` pool plus the instance attributes
`token`, `volName` and `headers` set in `on_start` (class attributes
`""`, `""`, `{}` before that). -/
structure UserState where
  tokens : List String
  token : String
  volName : String
  headers : List (String × String)
deriving DecidableEq, Repr

/-- Result of one task invocation: issued requests, responses marked failed,
events fired, and the state after the call. -/
structure TaskRes where
  issued : List Request
  marked : List String
  events : List Event
  finalState : UserState
deriving DecidableEq, Repr

/-- Run one task method: the `try` body runs the request sequence; on
normal completion `events.request_success.fire` runs, on an early return
the branch has already fired a failure event, and an exception reaching
`except Exception as e` fires `events.request_failure.fire` with that
exception (there `total_time` and `e` are both bound, so the call
succeeds).  No instance attribute and no global is assigned, so the state
is returned unchanged. -/
def runTask (taskName : String) (thresh : Nat → Bool) (reqs : List Request)
    (env : Nat → Outcome) (s : UserState) : TaskRes :=
  let r := runReqs thresh env reqs 0
  { issued := r.issued
    marked := r.marked
    events :=
      match r.exit with
      | .done => [.success taskName]
      | .earlyReturn => [.failure taskName (.user "")]
      | .raised e => [.failure taskName e]
    finalState := s }

/-- Failure threshold of `create_volume`: `resp.status_code >= 400`. -/
def createThreshold (status : Nat) : Bool := decide (400 ≤ status)

/-- Failure threshold of `delete_volume`: `resp.status_code > 400`. -/
def deleteThreshold (status : Nat) : Bool := decide (400 < status)

/-- The 11 requests of `create_volume` (lines 24-88), in program order. -/
def createRequests (volName : String) : List Request :=
  [ { method := "GET", path := "/api/types/StoragePool/instances/" },
    { method := "POST", path := "/api/types/Volume/instances/",
      payload := some [("volumeSizeInKb", "100"), ("storagePoolId", "dcc71b0500000000")] },
    { method := "GET", path := "/api/instances/Volume::" ++ volName ++ "/",
      locustName := some "/api/instances/Volume::<id>" },
    { method := "GET", path := "/api/types/StoragePool/instances/" },
    { method := "GET", path := "/api/instances/Volume::" ++ volName ++ "/",
      locustName := some "/api/instances/Volume::<id>" },
    { method := "GET", path := "/api/types/StoragePool/instances/" },
    { method := "POST", path := "/api/types/Volume/instances/",
      payload := some [("volumeSizeInKb", "100"), ("storagePoolId", "dcc71b0500000000")] },
    { method := "POST", path := "/api/types/Volume/instances/action/queryIdByKey/",
      payload := some [("name", volName)] },
    { method := "GET", path := "/api/instances/Volume::" ++ volName ++ "/",
      locustName := some "/api/instances/Volume::<id>" },
    { method := "GET", path := "/api/instances/System::7045c4cc20dffc0f/relationships/Sdc/" },
    { method := "POST", path := "/api/instances/Volume::" ++ volName ++ "/action/addMappedSdc/",
      locustName := some "/api/instances/Volume::<id>/action/addMappedSdc/",
      payload := some [("sdcId", "34e49c2000000004"), ("allowMultipleMappings", "TRUE"),
                       ("accessMode", "ReadWrite")] } ]

/-- The 9 requests of `delete_volume` (lines 106-156), in program order. -/
def deleteRequests (volName : String) : List Request :=
  [ { method := "GET", path := "/api/instances/Volume::" ++ volName ++ "/",
      locustName := some "/api/instances/Volume::<id>" },
    { method := "GET", path := "/api/instances/Volume::" ++ volName ++ "/",
      locustName := some "/api/instances/Volume::<id>" },
    { method := "GET", path := "/api/instances/System::7045c4cc20dffc0f/relationships/Sdc/" },
    { method := "POST", path := "/api/instances/Volume::" ++ volName ++ "/action/removeMappedSdc/",
      locustName := some "/api/instances/Volume::<id>/action/removeMappedSdc/",
      payload := some [("sdcId", "34e49c2000000004"), ("skipApplianceValidation", "TRUE")] },
    { method := "GET", path := "/api/instances/Volume::" ++ volName ++ "/",
      locustName := some "/api/instances/Volume::<id>" },
    { method := "GET", path := "/api/instances/System::7045c4cc20dffc0f/relationships/Sdc/" },
    { method := "GET", path := "/api/instances/Volume::" ++ volName ++ "/",
      locustName := some "/api/instances/Volume::<id>" },
    { method := "POST", path := "/api/instances/Volume::" ++ volName ++ "/action/removeVolume/",
      locustName := some "/api/instances/Volume::<id>/action/removeVolume/",
      payload := some [("removeMode", "ONLY_ME")] },
    { method := "GET", path := "/api/instances/Volume::" ++ volName ++ "/",
      locustName := some "/api/instances/Volume::<id>" } ]

/-- The `create_volume` task method (lines 20-98). -/
def create_volume (env : Nat → Outcome) (s : UserState) : TaskRes :=
  runTask "create_volume" createThreshold (createRequests s.volName) env s

/-- The `delete_volume` task method (lines 102-166). -/
def delete_volume (env : Nat → Outcome) (s : UserState) : TaskRes :=
  runTask "delete_volume" deleteThreshold (deleteRequests s.volName) env s

/-- An environment that answers request `i` with the given status and text
and every other request with `200 OK` and an empty body. -/
def envOne (i status : Nat) (text : String) : Nat → Outcome :=
  fun j => if j = i then .ok status text else .ok 200 ""

/-- The characters Python's `str.splitlines` treats as line boundaries
(`\r\n` is additionally merged into a single boundary before splitting). -/
def isPyLineBreak (c : Char) : Bool :=
  c = '\n' || c = '\r' || c = '\x0b' || c = '\x0c' ||
  c = '\x1c' || c = '\x1d' || c = '\x1e' || c = '\x85' ||
  c = '\u2028' || c = '\u2029'

/-- Merge each `\r\n` pair into a single `\n`, scanning left to right,
as Python's `str.splitlines` treats `\r\n` as one line boundary. -/
def normalizeCRLF : List Char → List Char
  | [] => []
  | [c] => [c]
  | c :: c2 :: rest =>
    if c = '\r' ∧ c2 = '\n' then '\n' :: normalizeCRLF rest
    else c :: normalizeCRLF (c2 :: rest)

/-- Split at every line-boundary character, discarding the boundary
characters; a trailing boundary does not produce a final empty line. -/
def splitBreaks : List Char → List Char → List String
  | [], acc => if acc.isEmpty then [] else [String.mk acc.reverse]
  | c :: rest, acc =>
    if isPyLineBreak c then String.mk acc.reverse :: splitBreaks rest []
    else splitBreaks rest (c :: acc)

/-- Python's `f.read().splitlines()` applied to the file content. -/
def pySplitlines (s : String) : List String :=
  splitBreaks (normalizeCRLF s.data) []

/-- `setTokens` (lines 6-10): assigns `TOKENS = f.read().splitlines()` of
`tokens.txt`, but only when `TOKENS == None`; a loaded pool is kept. -/
def setTokens (tokens : Option (List String)) (fileContent : String) :
    Option (List String) :=
  match tokens with
  | some pool => some pool
  | none => some (pySplitlines fileContent)

/-- Splitting on the newline character only, a trailing newline producing
no final empty line — the spec's words for the token file format
("newline-delimited bearer tokens"), to be compared with `pySplitlines`. -/
def newlineLinesAux : List Char → List Char → List String
  | [], acc => if acc.isEmpty then [] else [String.mk acc.reverse]
  | c :: rest, acc =>
    if c = '\n' then String.mk acc.reverse :: newlineLinesAux rest []
    else newlineLinesAux rest (c :: acc)

/-- The newline-delimited lines of a string (spec wording). -/
def newlineLines (s : String) : List String := newlineLinesAux s.data []

/-- The canonical string form of a UUID whose 32 hexadecimal digits are
`d`: `str(uuid.uuid4())` is the 8-4-4-4-12 grouping with `-` separators.
The digits themselves come from the random generator and are passed in. -/
def uuidCanonical (d : List Char) : List Char :=
  d.take 8 ++ '-' :: ((d.drop 8).take 4 ++ '-' :: ((d.drop 12).take 4 ++
    '-' :: ((d.drop 16).take 4 ++ '-' :: d.drop 20)))

/-- `s.replace('-', '')`: every occurrence of `-` is removed (replacing a
single character by the empty string keeps all other characters). -/
def pyReplaceDashEmpty (l : List Char) : List Char :=
  l.filter fun c => c != '-'

/-- Lowercase hexadecimal digit, the character set of `str(uuid.uuid4())`
apart from the hyphens. -/
def isHexDigit (c : Char) : Bool :=
  ('0' ≤ c && c ≤ '9') || ('a' ≤ c && c ≤ 'f')

/-- A fresh simulated user before `on_start`: the class attributes
`token = ""`, `volName = ""`, `headers = {}` (lines 16-18) and the shared
`TOKENS` pool. -/
def initUser (pool : List String) : UserState :=
  { tokens := pool, token := "", volName := "", headers := [] }

/-- `on_start` (lines 168-174): when the pool is non-empty, `TOKENS.pop()`
removes and assigns its last element (otherwise `self.token` keeps its
previous value and nothing raises); `volName` is `str(uuid.uuid4())` with
every hyphen removed, `d` being the UUID's 32 hex digits; the headers are
rebuilt from the token and the volume name. -/
def onStart (s : UserState) (d : List Char) : UserState :=
  let token := if s.tokens.length > 0 then s.tokens.getLast?.getD "" else s.token
  let tokens2 := if s.tokens.length > 0 then s.tokens.dropLast else s.tokens
  let volName := String.mk (pyReplaceDashEmpty (uuidCanonical d))
  { tokens := tokens2
    token := token
    volName := volName
    headers := [("Authorization", "Bearer " ++ token),
                ("x-csi-pv-name", volName),
                ("Forwarded", "by=vxflexos,for=https://10.247.66.155:8000;7045c4cc20dffc0f")] }

/-- A sequential execution of `on_start` calls: each simulated user starts
fresh, the `TOKENS` pool is threaded through, and the started users are
collected in order. -/
def runStarts : List String → List (List Char) → List String × List UserState
  | pool, [] => (pool, [])
  | pool, d :: rest =>
    let u := onStart (initUser pool) d
    let next := runStarts u.tokens rest
    (next.1, u :: next.2)

/-- The names the module imports from the locust framework (line 2). -/
def locustImportedNames : List String := ["HttpUser", "TaskSet", "task"]

/-- Every name bound at module level anywhere in the file: the imported
modules and names plus the four top-level definitions. -/
def moduleDefinedNames : List String :=
  ["time", "requests", "uuid"] ++ locustImportedNames ++
  ["TOKENS", "setTokens", "TenantCreateAndDeleteVolumeTask", "TenantCreateAndDeleteVolume"]

/-- The framework names the module body references without importing or
defining them: the base class `SequentialTaskSet` (line 14), `between`
(line 15) and `events` (throughout both task bodies). -/
def frameworkNamesReferenced : List String := ["SequentialTaskSet", "between", "events"]

/-- Names bound when the `class TenantCreateAndDeleteVolumeTask` statement
at line 14 starts executing: the imports and the two earlier top-level
bindings. -/
def boundBeforeClassStatement : List String :=
  ["time", "requests", "uuid"] ++ locustImportedNames ++ ["TOKENS", "setTokens"]

/-- The names resolved while executing the class statement, in evaluation
order: the base-class expression `SequentialTaskSet` first, then `between`
in the class body, then the decorator `task`.  (`events`, `time` and the
attribute names inside the method bodies are only resolved when a task
actually runs.) -/
def classStatementNeeds : List String := ["SequentialTaskSet", "between", "task"]

/-- Evaluate the module up to the class statement, with `external` naming
any bindings injected from outside the file: the first name needed by the
class statement that is bound neither in the module nor externally raises
`NameError` for that name. -/
def evalModuleClassStatement (external : List String) : Except String Unit :=
  match classStatementNeeds.find?
      (fun n => !((boundBeforeClassStatement ++ external).contains n)) with
  | some n => Except.error n
  | none => Except.ok ()

/-- A concrete user state used to instantiate universally quantified
theorems at a specific input. -/
def demoState : UserState :=
  { tokens := [], token := "tokA", volName := "vol0", headers := [("Authorization", "Bearer tokA")] }

theorem statusBranchRaise_eq :
    statusBranchRaise = some (PyExn.unboundLocal "total_time") := by decide

theorem runReqs_pass_head {thresh : Nat → Bool} {env : Nat → Outcome}
    {r : Request} {rest : List Request} {i s : Nat} {t : String}
    (hok : env i = Outcome.ok s t) (hth : thresh s = false) :
    runReqs thresh env (r :: rest) i =
      ⟨r :: (runReqs thresh env rest (i + 1)).issued,
       (runReqs thresh env rest (i + 1)).marked,
       (runReqs thresh env rest (i + 1)).exit⟩ := by
  simp [runReqs, hok, hth]

theorem runReqs_hit_head {thresh : Nat → Bool} {env : Nat → Outcome}
    {r : Request} {rest : List Request} {i s : Nat} {t : String}
    (hok : env i = Outcome.ok s t) (hth : thresh s = true) :
    runReqs thresh env (r :: rest) i =
      ⟨[r], [t], .raised (.unboundLocal "total_time")⟩ := by
  simp [runReqs, hok, hth, statusBranchRaise_eq]

theorem runReqs_exn_head {thresh : Nat → Bool} {env : Nat → Outcome}
    {r : Request} {rest : List Request} {i : Nat} {e : PyExn}
    (hok : env i = Outcome.exn e) :
    runReqs thresh env (r :: rest) i = ⟨[r], [], .raised e⟩ := by
  simp [runReqs, hok]

theorem runReqs_failAt (thresh : Nat → Bool) (env : Nat → Outcome) :
    ∀ (reqs : List Request) (i k S : Nat) (T : String),
    (∀ j, j < k → ∃ s t, env (i + j) = Outcome.ok s t ∧ thresh s = false) →
    env (i + k) = Outcome.ok S T → thresh S = true → k < reqs.length →
    runReqs thresh env reqs i =
      ⟨reqs.take (k + 1), [T], .raised (.unboundLocal "total_time")⟩ := by
  intro reqs
  induction reqs with
  | nil => intro i k S T _ _ _ hk; simp at hk
  | cons r rest ih =>
    intro i k S T hpass hS hth hk
    cases k with
    | zero =>
      have hS' : env i = Outcome.ok S T := by simpa using hS
      simp [runReqs_hit_head hS' hth]
    | succ k' =>
      obtain ⟨s0, t0, h0, hth0⟩ := hpass 0 (Nat.succ_pos k')
      have h0' : env i = Outcome.ok s0 t0 := by simpa using h0
      have step := ih (i + 1) k' S T
        (fun j hj => by
          have hidx : i + 1 + j = i + (j + 1) := by omega
          rw [hidx]
          exact hpass (j + 1) (by omega))
        (by
          have hidx : i + 1 + k' = i + (k' + 1) := by omega
          rw [hidx]; exact hS)
        hth
        (by simpa using Nat.lt_of_succ_lt_succ (by simpa using hk))
      rw [runReqs_pass_head h0' hth0, step]
      simp

theorem runReqs_exnAt (thresh : Nat → Bool) (env : Nat → Outcome) :
    ∀ (reqs : List Request) (i k : Nat) (e : PyExn),
    (∀ j, j < k → ∃ s t, env (i + j) = Outcome.ok s t ∧ thresh s = false) →
    env (i + k) = Outcome.exn e → k < reqs.length →
    runReqs thresh env reqs i = ⟨reqs.take (k + 1), [], .raised e⟩ := by
  intro reqs
  induction reqs with
  | nil => intro i k e _ _ hk; simp at hk
  | cons r rest ih =>
    intro i k e hpass hE hk
    cases k with
    | zero =>
      have hE' : env i = Outcome.exn e := by simpa using hE
      simp [runReqs_exn_head hE']
    | succ k' =>
      obtain ⟨s0, t0, h0, hth0⟩ := hpass 0 (Nat.succ_pos k')
      have h0' : env i = Outcome.ok s0 t0 := by simpa using h0
      have step := ih (i + 1) k' e
        (fun j hj => by
          have hidx : i + 1 + j = i + (j + 1) := by omega
          rw [hidx]
          exact hpass (j + 1) (by omega))
        (by
          have hidx : i + 1 + k' = i + (k' + 1) := by omega
          rw [hidx]; exact hE)
        (by simpa using Nat.lt_of_succ_lt_succ (by simpa using hk))
      rw [runReqs_pass_head h0' hth0, step]
      simp

theorem runReqs_allPass (thresh : Nat → Bool) (env : Nat → Outcome) :
    ∀ (reqs : List Request) (i : Nat),
    (∀ j, j < reqs.length → ∃ s t, env (i + j) = Outcome.ok s t ∧ thresh s = false) →
    runReqs thresh env reqs i = ⟨reqs, [], .done⟩ := by
  intro reqs
  induction reqs with
  | nil => intro i _; simp [runReqs]
  | cons r rest ih =>
    intro i hpass
    obtain ⟨s0, t0, h0, hth0⟩ := hpass 0 (by simp)
    have h0' : env i = Outcome.ok s0 t0 := by simpa using h0
    have step := ih (i + 1)
      (fun j hj => by
        have hidx : i + 1 + j = i + (j + 1) := by omega
        rw [hidx]
        exact hpass (j + 1) (by simpa using Nat.succ_lt_succ hj))
    rw [runReqs_pass_head h0' hth0, step]

theorem runReqs_done (thresh : Nat → Bool) (env : Nat → Outcome) :
    ∀ (reqs : List Request) (i : Nat),
    (runReqs thresh env reqs i).exit = BodyExit.done →
    ∀ j, j < reqs.length → ∃ s t, env (i + j) = Outcome.ok s t ∧ thresh s = false := by
  intro reqs
  induction reqs with
  | nil => intro i _ j hj; simp at hj
  | cons r rest ih =>
    intro i hdone j hj
    cases henv : env i with
    | exn e => rw [runReqs_exn_head henv] at hdone; simp at hdone
    | ok s0 t0 =>
      cases hth : thresh s0 with
      | true => rw [runReqs_hit_head henv hth] at hdone; simp at hdone
      | false =>
        rw [runReqs_pass_head henv hth] at hdone
        cases j with
        | zero => exact ⟨s0, t0, by simpa using henv, hth⟩
        | succ j' =>
          have := ih (i + 1) hdone j' (by simpa using Nat.lt_of_succ_lt_succ (by simpa using hj))
          obtain ⟨s1, t1, h1, ht1⟩ := this
          refine ⟨s1, t1, ?_, ht1⟩
          have hidx : i + 1 + j' = i + (j' + 1) := by omega
          rw [hidx] at h1
          exact h1

theorem runReqs_never_earlyReturn (thresh : Nat → Bool) (env : Nat → Outcome) :
    ∀ (reqs : List Request) (i : Nat),
    (runReqs thresh env reqs i).exit ≠ BodyExit.earlyReturn := by
  intro reqs
  induction reqs with
  | nil => intro i h; simp [runReqs] at h
  | cons r rest ih =>
    intro i h
    cases henv : env i with
    | exn e => rw [runReqs_exn_head henv] at h; simp at h
    | ok s0 t0 =>
      cases hth : thresh s0 with
      | true => rw [runReqs_hit_head henv hth] at h; simp at h
      | false =>
        rw [runReqs_pass_head henv hth] at h
        exact ih (i + 1) h

theorem runTask_failAt (nm : String) (thresh : Nat → Bool) (reqs : List Request)
    (i status : Nat) (t : String) (s : UserState)
    (h200 : thresh 200 = false) (hth : thresh status = true) (hi : i < reqs.length) :
    runTask nm thresh reqs (envOne i status t) s =
      ⟨reqs.take (i + 1), [t], [.failure nm (.unboundLocal "total_time")], s⟩ := by
  have hrun := runReqs_failAt thresh (envOne i status t) reqs 0 i status t
    (fun j hj => ⟨200, "", by simp [envOne]; omega, h200⟩)
    (by simp [envOne]) hth (by simpa using hi)
  simp [runTask, hrun]

theorem runTask_exnAt (nm : String) (thresh : Nat → Bool) (reqs : List Request)
    (i : Nat) (e : PyExn) (env : Nat → Outcome) (s : UserState)
    (hE : env i = Outcome.exn e)
    (hpass : ∀ j, j < i → ∃ st t, env j = Outcome.ok st t ∧ thresh st = false)
    (hi : i < reqs.length) :
    runTask nm thresh reqs env s =
      ⟨reqs.take (i + 1), [], [.failure nm e], s⟩ := by
  have hrun := runReqs_exnAt thresh env reqs 0 i e
    (fun j hj => by simpa using hpass j hj)
    (by simpa using hE) (by simpa using hi)
  simp [runTask, hrun]

theorem runTask_allPass (nm : String) (thresh : Nat → Bool) (reqs : List Request)
    (env : Nat → Outcome) (s : UserState)
    (hpass : ∀ j, j < reqs.length → ∃ st t, env j = Outcome.ok st t ∧ thresh st = false) :
    runTask nm thresh reqs env s = ⟨reqs, [], [.success nm], s⟩ := by
  have hrun := runReqs_allPass thresh env reqs 0 (fun j hj => by simpa using hpass j hj)
  simp [runTask, hrun]

theorem runTask_success_inv (nm : String) (thresh : Nat → Bool) (reqs : List Request)
    (env : Nat → Outcome) (s : UserState)
    (h : (runTask nm thresh reqs env s).events = [.success nm]) :
    ∀ j, j < reqs.length → ∃ st t, env j = Outcome.ok st t ∧ thresh st = false := by
  intro j hj
  cases hexit : (runReqs thresh env reqs 0).exit with
  | done =>
    have := runReqs_done thresh env reqs 0 hexit j (by simpa using hj)
    simpa using this
  | earlyReturn => simp [runTask, hexit] at h
  | raised e => simp [runTask, hexit] at h

theorem createRequests_length (v : String) : (createRequests v).length = 11 := rfl

theorem deleteRequests_length (v : String) : (deleteRequests v).length = 9 := rfl

/-- C1: a response whose status code meets the task's failure threshold is
marked failed (`resp.failure(resp.text)`), a task-level failure is reported,
and the remaining requests of the invocation are skipped with no retry (the
issued requests are exactly the first `i + 1` of the fixed sequence); the
threshold is `>= 400` in `create_volume` and `> 400` in `delete_volume`, so
a 400 response is a failure in `create_volume` but not in `delete_volume`. -/
theorem claim_c1 (s : UserState) (i₁ i₂ i₃ i₄ status₁ status₂ : Nat) (t : String)
    (h₁ : i₁ < 11) (hs₁ : 400 ≤ status₁) (h₂ : i₂ < 9) (hs₂ : 400 < status₂)
    (h₃ : i₃ < 9) (h₄ : i₄ < 11) :
    create_volume (envOne i₁ status₁ t) s =
      ⟨(createRequests s.volName).take (i₁ + 1), [t],
       [.failure "create_volume" (.unboundLocal "total_time")], s⟩ ∧
    delete_volume (envOne i₂ status₂ t) s =
      ⟨(deleteRequests s.volName).take (i₂ + 1), [t],
       [.failure "delete_volume" (.unboundLocal "total_time")], s⟩ ∧
    create_volume (envOne i₄ 400 t) s =
      ⟨(createRequests s.volName).take (i₄ + 1), [t],
       [.failure "create_volume" (.unboundLocal "total_time")], s⟩ ∧
    delete_volume (envOne i₃ 400 t) s =
      ⟨deleteRequests s.volName, [], [.success "delete_volume"], s⟩ := by
  refine ⟨?_, ?_, ?_, ?_⟩
  · exact runTask_failAt "create_volume" createThreshold (createRequests s.volName) i₁ status₁ t s
      (by decide) (by simp [createThreshold]; exact hs₁)
      (by rw [createRequests_length]; exact h₁)
  · exact runTask_failAt "delete_volume" deleteThreshold (deleteRequests s.volName) i₂ status₂ t s
      (by decide) (by simp [deleteThreshold]; exact hs₂)
      (by rw [deleteRequests_length]; exact h₂)
  · exact runTask_failAt "create_volume" createThreshold (createRequests s.volName) i₄ 400 t s
      (by decide) (by decide) (by rw [createRequests_length]; exact h₄)
  · exact runTask_allPass "delete_volume" deleteThreshold (deleteRequests s.volName)
      (envOne i₃ 400 t) s
      (fun j hj => by
        by_cases hji : j = i₃
        · exact ⟨400, t, by simp [envOne, hji], by decide⟩
        · exact ⟨200, "", by simp [envOne, hji], by decide⟩)

theorem claim_c1_witness :
    create_volume (envOne 2 404 "oops") demoState =
      ⟨(createRequests demoState.volName).take 3, ["oops"],
       [.failure "create_volume" (.unboundLocal "total_time")], demoState⟩ :=
  (claim_c1 demoState 2 3 4 5 404 500 "oops" (by decide) (by decide) (by decide)
    (by decide) (by decide) (by decide)).1

/-- C2: an exception raised while issuing request `i` aborts the rest of the
sequence (issued requests stop at `i + 1`) and exactly one task-level
`request_failure` event is fired, carrying that exception; the
`request_success` event is fired only when every request of the sequence
returned a response below the failure threshold and no exception was
raised. -/
theorem claim_c2 (s : UserState) (i₁ i₂ : Nat) (e₁ e₂ : PyExn)
    (env₁ env₂ : Nat → Outcome)
    (h₁ : i₁ < 11) (he₁ : env₁ i₁ = Outcome.exn e₁)
    (hp₁ : ∀ j, j < i₁ → ∃ st t, env₁ j = Outcome.ok st t ∧ createThreshold st = false)
    (h₂ : i₂ < 9) (he₂ : env₂ i₂ = Outcome.exn e₂)
    (hp₂ : ∀ j, j < i₂ → ∃ st t, env₂ j = Outcome.ok st t ∧ deleteThreshold st = false) :
    create_volume env₁ s =
      ⟨(createRequests s.volName).take (i₁ + 1), [], [.failure "create_volume" e₁], s⟩ ∧
    delete_volume env₂ s =
      ⟨(deleteRequests s.volName).take (i₂ + 1), [], [.failure "delete_volume" e₂], s⟩ ∧
    (∀ env, (create_volume env s).events = [.success "create_volume"] →
      ∀ j, j < 11 → ∃ st t, env j = Outcome.ok st t ∧ createThreshold st = false) ∧
    (∀ env, (delete_volume env s).events = [.success "delete_volume"] →
      ∀ j, j < 9 → ∃ st t, env j = Outcome.ok st t ∧ deleteThreshold st = false) := by
  refine ⟨?_, ?_, ?_, ?_⟩
  · exact runTask_exnAt "create_volume" createThreshold (createRequests s.volName) i₁ e₁ env₁ s
      he₁ hp₁ (by rw [createRequests_length]; exact h₁)
  · exact runTask_exnAt "delete_volume" deleteThreshold (deleteRequests s.volName) i₂ e₂ env₂ s
      he₂ hp₂ (by rw [deleteRequests_length]; exact h₂)
  · intro env hev j hj
    exact runTask_success_inv "create_volume" createThreshold (createRequests s.volName) env s
      hev j (by rw [createRequests_length]; exact hj)
  · intro env hev j hj
    exact runTask_success_inv "delete_volume" deleteThreshold (deleteRequests s.volName) env s
      hev j (by rw [deleteRequests_length]; exact hj)

theorem claim_c2_witness :
    create_volume (fun _ => Outcome.exn (PyExn.user "connection reset")) demoState =
      ⟨(createRequests demoState.volName).take 1, [],
       [.failure "create_volume" (.user "connection reset")], demoState⟩ :=
  (claim_c2 demoState 0 0 (.user "connection reset") (.user "connection reset")
    (fun _ => Outcome.exn (PyExn.user "connection reset"))
    (fun _ => Outcome.exn (PyExn.user "connection reset"))
    (by decide) rfl (fun j hj => absurd hj (by omega))
    (by decide) rfl (fun j hj => absurd hj (by omega))).1

/-- C4: the `events.request_failure.fire` call in every status-code failure
branch references the function locals `total_time` and `e`, neither of which
is bound there, so executing such a branch raises (UnboundLocalError for
`total_time`, the first one referenced) instead of completing; the `return`
after the call is unreachable (no run of a task body ever performs the early
return), and the status-code failure is reported through the surrounding
exception handler with that exception — not the HTTP response — attached. -/
theorem claim_c4 (s : UserState) (i₁ i₂ status₁ status₂ : Nat) (t₁ t₂ : String)
    (h₁ : i₁ < 11) (hs₁ : 400 ≤ status₁) (h₂ : i₂ < 9) (hs₂ : 400 < status₂) :
    boundLocalsAtStatusBranch.contains "total_time" = false ∧
    boundLocalsAtStatusBranch.contains "e" = false ∧
    "total_time" ∈ localNamesOfTaskFn ∧
    "e" ∈ localNamesOfTaskFn ∧
    statusBranchRaise = some (.unboundLocal "total_time") ∧
    (∀ thresh env reqs j, (runReqs thresh env reqs j).exit ≠ BodyExit.earlyReturn) ∧
    (create_volume (envOne i₁ status₁ t₁) s).events =
      [.failure "create_volume" (.unboundLocal "total_time")] ∧
    (create_volume (envOne i₁ status₁ t₁) s).marked = [t₁] ∧
    (delete_volume (envOne i₂ status₂ t₂) s).events =
      [.failure "delete_volume" (.unboundLocal "total_time")] ∧
    (delete_volume (envOne i₂ status₂ t₂) s).marked = [t₂] := by
  have hc := runTask_failAt "create_volume" createThreshold (createRequests s.volName)
    i₁ status₁ t₁ s (by decide) (by simp [createThreshold]; exact hs₁)
    (by rw [createRequests_length]; exact h₁)
  have hd := runTask_failAt "delete_volume" deleteThreshold (deleteRequests s.volName)
    i₂ status₂ t₂ s (by decide) (by simp [deleteThreshold]; exact hs₂)
    (by rw [deleteRequests_length]; exact h₂)
  refine ⟨by decide, by decide, by decide, by decide, statusBranchRaise_eq,
    fun thresh env reqs j => runReqs_never_earlyReturn thresh env reqs j,
    ?_, ?_, ?_, ?_⟩
  · show (create_volume (envOne i₁ status₁ t₁) s).events = _
    rw [show create_volume (envOne i₁ status₁ t₁) s = _ from hc]
  · show (create_volume (envOne i₁ status₁ t₁) s).marked = _
    rw [show create_volume (envOne i₁ status₁ t₁) s = _ from hc]
  · show (delete_volume (envOne i₂ status₂ t₂) s).events = _
    rw [show delete_volume (envOne i₂ status₂ t₂) s = _ from hd]
  · show (delete_volume (envOne i₂ status₂ t₂) s).marked = _
    rw [show delete_volume (envOne i₂ status₂ t₂) s = _ from hd]

theorem claim_c4_witness :
    (create_volume (envOne 0 500 "server error") demoState).events =
      [.failure "create_volume" (.unboundLocal "total_time")] :=
  (claim_c4 demoState 0 0 500 500 "server error" "gone" (by decide) (by decide)
    (by decide) (by decide)).2.2.2.2.2.2.1

/-- C5: with every status check passing, `create_volume` issues exactly the
11 requests of its fixed sequence in order, and `delete_volume` exactly its
9, with the methods and paths listed in the claim. -/
theorem claim_c5 (s : UserState) (env₁ env₂ : Nat → Outcome)
    (hp₁ : ∀ j, j < 11 → ∃ st t, env₁ j = Outcome.ok st t ∧ createThreshold st = false)
    (hp₂ : ∀ j, j < 9 → ∃ st t, env₂ j = Outcome.ok st t ∧ deleteThreshold st = false) :
    (create_volume env₁ s).issued = createRequests s.volName ∧
    (createRequests s.volName).length = 11 ∧
    (createRequests s.volName).map (fun r => (r.method, r.path)) =
      [("GET", "/api/types/StoragePool/instances/"),
       ("POST", "/api/types/Volume/instances/"),
       ("GET", "/api/instances/Volume::" ++ s.volName ++ "/"),
       ("GET", "/api/types/StoragePool/instances/"),
       ("GET", "/api/instances/Volume::" ++ s.volName ++ "/"),
       ("GET", "/api/types/StoragePool/instances/"),
       ("POST", "/api/types/Volume/instances/"),
       ("POST", "/api/types/Volume/instances/action/queryIdByKey/"),
       ("GET", "/api/instances/Volume::" ++ s.volName ++ "/"),
       ("GET", "/api/instances/System::7045c4cc20dffc0f/relationships/Sdc/"),
       ("POST", "/api/instances/Volume::" ++ s.volName ++ "/action/addMappedSdc/")] ∧
    (create_volume env₁ s).events = [.success "create_volume"] ∧
    (delete_volume env₂ s).issued = deleteRequests s.volName ∧
    (deleteRequests s.volName).length = 9 ∧
    (deleteRequests s.volName).map (fun r => (r.method, r.path)) =
      [("GET", "/api/instances/Volume::" ++ s.volName ++ "/"),
       ("GET", "/api/instances/Volume::" ++ s.volName ++ "/"),
       ("GET", "/api/instances/System::7045c4cc20dffc0f/relationships/Sdc/"),
       ("POST", "/api/instances/Volume::" ++ s.volName ++ "/action/removeMappedSdc/"),
       ("GET", "/api/instances/Volume::" ++ s.volName ++ "/"),
       ("GET", "/api/instances/System::7045c4cc20dffc0f/relationships/Sdc/"),
       ("GET", "/api/instances/Volume::" ++ s.volName ++ "/"),
       ("POST", "/api/instances/Volume::" ++ s.volName ++ "/action/removeVolume/"),
       ("GET", "/api/instances/Volume::" ++ s.volName ++ "/")] ∧
    (delete_volume env₂ s).events = [.success "delete_volume"] := by
  have hc := runTask_allPass "create_volume" createThreshold (createRequests s.volName) env₁ s
    (fun j hj => hp₁ j (by rw [createRequests_length] at hj; exact hj))
  have hd := runTask_allPass "delete_volume" deleteThreshold (deleteRequests s.volName) env₂ s
    (fun j hj => hp₂ j (by rw [deleteRequests_length] at hj; exact hj))
  refine ⟨?_, rfl, rfl, ?_, ?_, rfl, rfl, ?_⟩
  · show (create_volume env₁ s).issued = _
    rw [show create_volume env₁ s = _ from hc]
  · show (create_volume env₁ s).events = _
    rw [show create_volume env₁ s = _ from hc]
  · show (delete_volume env₂ s).issued = _
    rw [show delete_volume env₂ s = _ from hd]
  · show (delete_volume env₂ s).events = _
    rw [show delete_volume env₂ s = _ from hd]

theorem claim_c5_witness :
    (create_volume (fun _ => Outcome.ok 200 "") demoState).issued =
      createRequests demoState.volName ∧
    (delete_volume (fun _ => Outcome.ok 200 "") demoState).issued =
      deleteRequests demoState.volName := by
  have h := claim_c5 demoState (fun _ => Outcome.ok 200 "") (fun _ => Outcome.ok 200 "")
    (fun j hj => ⟨200, "", rfl, by decide⟩) (fun j hj => ⟨200, "", rfl, by decide⟩)
  exact ⟨h.1, h.2.2.2.2.1⟩

/-- C9: neither task method modifies the per-user state set in `on_start`
(`token`, `volName`, `headers`) or the shared token pool: the state after
any invocation, successful or failed, equals the state before it. -/
theorem claim_c9 (env₁ env₂ : Nat → Outcome) (s : UserState) :
    (create_volume env₁ s).finalState = s ∧
    (delete_volume env₂ s).finalState = s ∧
    (create_volume env₁ s).finalState.tokens = s.tokens ∧
    (create_volume env₁ s).finalState.token = s.token ∧
    (create_volume env₁ s).finalState.volName = s.volName ∧
    (create_volume env₁ s).finalState.headers = s.headers ∧
    (delete_volume env₂ s).finalState.tokens = s.tokens ∧
    (delete_volume env₂ s).finalState.headers = s.headers :=
  ⟨rfl, rfl, rfl, rfl, rfl, rfl, rfl, rfl⟩

theorem normalizeCRLF_eq_self : ∀ l : List Char, '\r' ∉ l → normalizeCRLF l = l := by
  intro l
  induction l with
  | nil => intro _; rfl
  | cons c rest ih =>
    intro h
    have hc : c ≠ '\r' := by intro hcc; subst hcc; exact h (List.mem_cons_self _ _)
    have hr : '\r' ∉ rest := by intro hm; exact h (List.mem_cons_of_mem _ hm)
    cases rest with
    | nil => rfl
    | cons c2 rest2 =>
      have : normalizeCRLF (c :: c2 :: rest2) = c :: normalizeCRLF (c2 :: rest2) := by
        simp [normalizeCRLF, hc]
      rw [this, ih hr]

theorem splitBreaks_eq_newline : ∀ (l acc : List Char),
    (∀ c ∈ l, isPyLineBreak c = true → c = '\n') →
    splitBreaks l acc = newlineLinesAux l acc := by
  intro l
  induction l with
  | nil => intro acc _; rfl
  | cons c rest ih =>
    intro acc h
    have hrest : ∀ c' ∈ rest, isPyLineBreak c' = true → c' = '\n' :=
      fun c' hm => h c' (List.mem_cons_of_mem _ hm)
    by_cases hbr : isPyLineBreak c = true
    · have hcn : c = '\n' := h c (List.mem_cons_self _ _) hbr
      subst hcn
      simp [splitBreaks, newlineLinesAux, isPyLineBreak, ih [] hrest]
    · have hcn : c ≠ '\n' := by intro hcc; subst hcc; exact hbr (by decide)
      simp [splitBreaks, newlineLinesAux, hbr, hcn, ih (c :: acc) hrest]

/-- C7: `setTokens` sets the pool to the lines of `tokens.txt` only while
the pool is still unset (`TOKENS == None`); any later call leaves the
loaded pool unchanged; and for newline-delimited content (no other line
boundary characters) the loaded lines are exactly the newline-delimited
lines of the file. -/
theorem claim_c7 (content : String) (pool : List String)
    (h : ∀ c ∈ content.data, isPyLineBreak c = true → c = '\n') :
    setTokens none content = some (pySplitlines content) ∧
    setTokens (some pool) content = some pool ∧
    pySplitlines content = newlineLines content := by
  refine ⟨rfl, rfl, ?_⟩
  have hr : '\r' ∉ content.data := by
    intro hm
    exact absurd (h '\r' hm (by decide)) (by decide)
  unfold pySplitlines newlineLines
  rw [normalizeCRLF_eq_self content.data hr]
  exact splitBreaks_eq_newline content.data [] h

theorem claim_c7_witness :
    setTokens none "alpha\nbeta\n" = some (pySplitlines "alpha\nbeta\n") ∧
    setTokens (some ["loaded"]) "alpha\nbeta\n" = some ["loaded"] ∧
    pySplitlines "alpha\nbeta\n" = newlineLines "alpha\nbeta\n" :=
  claim_c7 "alpha\nbeta\n" ["loaded"] (by decide)

/-- C3: the module references `SequentialTaskSet`, `between` and `events`,
none of which is imported (only `HttpUser`, `TaskSet`, `task` come from
locust) or defined anywhere in the file, so executing the module runs into
the unbound name `SequentialTaskSet` at the class statement unless the
missing names are supplied externally (with them supplied, the class
statement resolves all its names). -/
theorem claim_c3 :
    frameworkNamesReferenced.all (fun n => !(moduleDefinedNames.contains n)) = true ∧
    moduleDefinedNames.contains "SequentialTaskSet" = false ∧
    moduleDefinedNames.contains "between" = false ∧
    moduleDefinedNames.contains "events" = false ∧
    locustImportedNames.contains "SequentialTaskSet" = false ∧
    locustImportedNames.contains "between" = false ∧
    locustImportedNames.contains "events" = false ∧
    evalModuleClassStatement [] = Except.error "SequentialTaskSet" ∧
    evalModuleClassStatement frameworkNamesReferenced = Except.ok () := by
  exact ⟨by decide, by decide, by decide, by decide, by decide, by decide, by decide, rfl, rfl⟩

/-- C10: with an empty token pool, `on_start` completes without raising
(the pop is guarded by the length check): the token stays the empty
string and the headers are still built, the Authorization value being
exactly `"Bearer "` with nothing after the space. -/
theorem claim_c10 (d : List Char) :
    (onStart (initUser []) d).tokens = [] ∧
    (onStart (initUser []) d).token = "" ∧
    (onStart (initUser []) d).headers =
      [("Authorization", "Bearer "),
       ("x-csi-pv-name", String.mk (pyReplaceDashEmpty (uuidCanonical d))),
       ("Forwarded", "by=vxflexos,for=https://10.247.66.155:8000;7045c4cc20dffc0f")] := by
  refine ⟨rfl, rfl, ?_⟩
  simp [onStart, initUser]

theorem hexDigit_ne_dash {c : Char} (h : isHexDigit c = true) : (c != '-') = true := by
  by_cases hc : c = '-'
  · subst hc; exact absurd h (by decide)
  · simp [hc]

theorem pyReplaceDashEmpty_uuidCanonical {d : List Char}
    (hnd : ∀ c ∈ d, (c != '-') = true) :
    pyReplaceDashEmpty (uuidCanonical d) = d := by
  have f1 : (d.take 8).filter (fun c => c != '-') = d.take 8 :=
    List.filter_eq_self.mpr fun a ha => hnd a (List.take_subset _ _ ha)
  have f2 : ((d.drop 8).take 4).filter (fun c => c != '-') = (d.drop 8).take 4 :=
    List.filter_eq_self.mpr fun a ha => hnd a (List.drop_subset _ _ (List.take_subset _ _ ha))
  have f3 : ((d.drop 12).take 4).filter (fun c => c != '-') = (d.drop 12).take 4 :=
    List.filter_eq_self.mpr fun a ha => hnd a (List.drop_subset _ _ (List.take_subset _ _ ha))
  have f4 : ((d.drop 16).take 4).filter (fun c => c != '-') = (d.drop 16).take 4 :=
    List.filter_eq_self.mpr fun a ha => hnd a (List.drop_subset _ _ (List.take_subset _ _ ha))
  have f5 : (d.drop 20).filter (fun c => c != '-') = d.drop 20 :=
    List.filter_eq_self.mpr fun a ha => hnd a (List.drop_subset _ _ ha)
  have hdash : (('-' : Char) != '-') = false := by decide
  unfold pyReplaceDashEmpty uuidCanonical
  rw [List.filter_append, List.filter_cons, List.filter_append, List.filter_cons,
    List.filter_append, List.filter_cons, List.filter_append, List.filter_cons]
  simp only [hdash, if_neg, Bool.false_eq_true, not_false_eq_true, f1, f2, f3, f4, f5]
  have e4 : (d.drop 16).take 4 ++ d.drop 20 = d.drop 16 := by
    have h20 : d.drop 20 = (d.drop 16).drop 4 := by rw [List.drop_drop]
    rw [h20, List.take_append_drop]
  have e3 : (d.drop 12).take 4 ++ d.drop 16 = d.drop 12 := by
    have h16 : d.drop 16 = (d.drop 12).drop 4 := by rw [List.drop_drop]
    rw [h16, List.take_append_drop]
  have e2 : (d.drop 8).take 4 ++ d.drop 12 = d.drop 8 := by
    have h12 : d.drop 12 = (d.drop 8).drop 4 := by rw [List.drop_drop]
    rw [h12, List.take_append_drop]
  rw [e4, e3, e2, List.take_append_drop]

/-- C8: `on_start` sets the volume name to `str(uuid.uuid4())` with every
hyphen removed, `d` being the UUID's 32 hexadecimal digits; the result
has length 32 and contains no hyphen. -/
theorem claim_c8 (pool : List String) (d : List Char)
    (hlen : d.length = 32) (hhex : ∀ c ∈ d, isHexDigit c = true) :
    ((onStart (initUser pool) d).volName).length = 32 ∧
    ∀ c ∈ ((onStart (initUser pool) d).volName).data, c ≠ '-' := by
  have hrepl : pyReplaceDashEmpty (uuidCanonical d) = d :=
    pyReplaceDashEmpty_uuidCanonical fun c hc => hexDigit_ne_dash (hhex c hc)
  constructor
  · show (pyReplaceDashEmpty (uuidCanonical d)).length = 32
    rw [hrepl]; exact hlen
  · show ∀ c ∈ pyReplaceDashEmpty (uuidCanonical d), c ≠ '-'
    rw [hrepl]
    intro c hc hcd
    subst hcd
    exact absurd (hhex '-' hc) (by decide)

theorem claim_c8_witness :
    ((onStart (initUser []) ("0123456789abcdef0123456789abcdef".data)).volName).length = 32 ∧
    ∀ c ∈ ((onStart (initUser []) ("0123456789abcdef0123456789abcdef".data)).volName).data,
      c ≠ '-' :=
  claim_c8 [] ("0123456789abcdef0123456789abcdef".data) (by decide) (by decide)

theorem runStarts_map_token : ∀ (ds : List (List Char)) (pool : List String),
    (runStarts pool ds).2.map UserState.token =
      pool.reverse.take ds.length ++ List.replicate (ds.length - pool.length) "" := by
  intro ds
  induction ds with
  | nil => intro pool; simp [runStarts]
  | cons d rest ih =>
    intro pool
    by_cases hp : pool = []
    · subst hp
      have h0 : (onStart (initUser ([] : List String)) d).token = "" := rfl
      have h1 : (onStart (initUser ([] : List String)) d).tokens = [] := rfl
      have hstep : (runStarts ([] : List String) (d :: rest)).2 =
          onStart (initUser []) d :: (runStarts (onStart (initUser ([] : List String)) d).tokens rest).2 := rfl
      rw [hstep, List.map_cons, h0, h1, ih]
      simp [List.replicate_succ]
    · have hlen : 0 < pool.length := List.length_pos.mpr hp
      have hlast : pool.getLast? = some (pool.getLast hp) := List.getLast?_eq_getLast pool hp
      have htok : (onStart (initUser pool) d).token = pool.getLast hp := by
        simp [onStart, initUser, hlen, hlast]
      have htoks : (onStart (initUser pool) d).tokens = pool.dropLast := by
        simp [onStart, initUser, hlen]
      have hstep : (runStarts pool (d :: rest)).2 =
          onStart (initUser pool) d :: (runStarts (onStart (initUser pool) d).tokens rest).2 := rfl
      rw [hstep, List.map_cons, htok, htoks, ih]
      have hrev : pool.reverse = pool.getLast hp :: pool.dropLast.reverse := by
        conv_lhs => rw [← List.dropLast_append_getLast hp]
        rw [List.reverse_append]
        rfl
      rw [hrev]
      simp only [List.length_cons, List.take_succ_cons, List.cons_append, List.length_dropLast]
      have harith : rest.length - (pool.length - 1) = rest.length + 1 - pool.length := by omega
      rw [harith]

theorem runStarts_token_count (pool : List String) (ds : List (List Char))
    (hnd : pool.Nodup) (hno : "" ∉ pool) (tok : String) (htok : tok ∈ pool) :
    ((runStarts pool ds).2.map UserState.token).count tok ≤ 1 := by
  rw [runStarts_map_token, List.count_append]
  have h1 : (pool.reverse.take ds.length).count tok ≤ pool.reverse.count tok :=
    (List.take_sublist _ _).count_le _
  have h2 : pool.reverse.count tok = pool.count tok := List.count_reverse _ _
  have h3 : pool.count tok ≤ 1 := List.nodup_iff_count_le_one.mp hnd tok
  have h4 : (List.replicate (ds.length - pool.length) "").count tok = 0 := by
    rw [List.count_replicate]
    have hne : tok ≠ "" := fun he => hno (he ▸ htok)
    simp [hne, Ne.symm hne]
  omega

/-- C6 (amended): every `on_start` call that finds the pool non-empty
shrinks it by exactly one, assigning a member of the pool; and provided the
pool's tokens are pairwise distinct and the empty string is not among them,
no token string from the pool is assigned to two different simulated users
in any sequential execution of `on_start` calls.  (With duplicate tokens in
the pool — or the empty string present and more users than tokens — the
same string is assigned to two users, refuting the unconditional claim.) -/
theorem claim_c6 (pool pool₀ : List String) (d₀ : List Char) (ds : List (List Char))
    (hnd : pool.Nodup) (hno : "" ∉ pool) (hne : pool₀ ≠ []) :
    (onStart (initUser pool₀) d₀).tokens.length = pool₀.length - 1 ∧
    (onStart (initUser pool₀) d₀).token ∈ pool₀ ∧
    ∀ tok ∈ pool, ((runStarts pool ds).2.map UserState.token).count tok ≤ 1 := by
  have hlen : 0 < pool₀.length := List.length_pos.mpr hne
  refine ⟨?_, ?_, fun tok htok => runStarts_token_count pool ds hnd hno tok htok⟩
  · simp [onStart, initUser, hlen]
  · have hlast : pool₀.getLast? = some (pool₀.getLast hne) := List.getLast?_eq_getLast pool₀ hne
    have : (onStart (initUser pool₀) d₀).token = pool₀.getLast hne := by
      simp [onStart, initUser, hlen, hlast]
    rw [this]
    exact List.getLast_mem hne

theorem claim_c6_witness :
    (onStart (initUser ["a", "b"]) (List.replicate 32 '0')).tokens.length = 1 ∧
    (onStart (initUser ["a", "b"]) (List.replicate 32 '0')).token ∈ (["a", "b"] : List String) ∧
    ∀ tok ∈ (["a", "b"] : List String),
      ((runStarts ["a", "b"] [List.replicate 32 '0']).2.map UserState.token).count tok ≤ 1 :=
  claim_c6 ["a", "b"] ["a", "b"] (List.replicate 32 '0') [List.replicate 32 '0']
    (by decide) (by decide) (by decide)

theorem claim_c6_counterexample :
    ((runStarts ["tok", "tok"] [List.replicate 32 '0', List.replicate 32 '1']).2.map
      UserState.token) = ["tok", "tok"] ∧
    ¬ ((runStarts ["tok", "tok"] [List.replicate 32 '0', List.replicate 32 '1']).2.map
      UserState.token).Nodup ∧
    "tok" ∈ (["tok", "tok"] : List String) := by
  refine ⟨by decide, by decide, by decide⟩

end Locust
